import Mathlib

/-!
Verification of the state-history streaming client
(`src/state_history_connection.hpp`) and of the `wasm_ql_plugin`
configuration parsing (`src/wasm_ql_plugin.cpp`).

The connection is embedded as a pure state machine: the mutable fields of
`eosio::state_history::connection` become a `Conn` record, and every
observable action (issuing a read, writing bytes, logging, invoking a sink
callback) becomes an element of a `List Effect` returned alongside the new
state.  External library calls that live outside this repository
(`from_json`, `abieos::check_abi_version`, `convert`, `from_bin`) are passed
in as explicit arguments, so the theorems quantify over their behaviour.
C++ exceptions are modelled as an `Option String` component threaded to the
`catch_and_close` boundary, exactly where the source catches them.
-/

namespace StateHistory

/-- Opaque binary type descriptor (`eosio::abi_type`); its internals are
irrelevant to the connection logic, which only stores and looks them up. -/
abbrev abi_type := Nat

/-- Modelled from the spec: the BootstrapDefinition (the underlying
`eosio::abi_def` of `abi_def_skip_table` is declared outside this excerpt).
Per section 3 it is a version string plus ordered declarations; the
declarations are kept abstract since only the registry built from them is
used here. -/
structure abi_def where
  version : String := ""
  declarations : List (String × abi_type) := []
deriving DecidableEq, Repr

/-- The four fields of `get_status_result_v0` that the connection logic
reads (the full struct is declared outside this excerpt; the remaining
fields are never consulted by the client code verified here). -/
structure get_status_result_v0 where
  trace_begin_block : Nat
  trace_end_block : Nat
  chain_state_begin_block : Nat
  chain_state_end_block : Nat
deriving DecidableEq, Repr

/-- `get_blocks_result_v0` is delivered to the sink opaquely; its payload is
modelled as raw bytes. -/
structure get_blocks_result_v0 where
  payload : List Nat := []
deriving DecidableEq, Repr

/-- `state_history::result`: the tagged union over the two result kinds. -/
inductive result where
  | status (s : get_status_result_v0)
  | blocks (b : get_blocks_result_v0)
deriving DecidableEq, Repr

/-- `state_history::block_position`: a block number plus a 256-bit block id
(32 bytes, modelled as a byte list). -/
structure block_position where
  block_num : Nat
  block_id : List Nat
deriving DecidableEq, Repr

/-- `state_history::get_blocks_request_v0` with its eight fields. -/
structure get_blocks_request_v0 where
  start_block_num : Nat
  end_block_num : Nat
  max_messages_in_flight : Nat
  have_positions : List block_position
  irreversible_only : Bool
  fetch_block : Bool
  fetch_traces : Bool
  fetch_deltas : Bool
deriving DecidableEq, Repr

/-- `state_history::request`: the outbound tagged union. -/
inductive request where
  | get_status
  | get_blocks (r : get_blocks_request_v0)
deriving DecidableEq, Repr

/-- The `connection_callbacks` sink, restricted to the two `received`
handlers that return a continue/stop Bool.  `received_abi` and `closed`
have no return value and are recorded as effects instead. -/
structure connection_callbacks where
  receivedStatus : get_status_result_v0 → List Nat → Bool
  receivedBlocks : get_blocks_result_v0 → List Nat → Bool

/-- Every externally observable action of the connection. -/
inductive Effect where
  | issueRead
  | closeTransport
  | logError (msg : String)
  | reportedError (msg : String)
  | sendBytes (bytes : List Nat)
  | sinkReceivedAbi
  | sinkReceivedStatus (s : get_status_result_v0) (bin : List Nat)
  | sinkReceivedBlocks (b : get_blocks_result_v0) (bin : List Nat)
  | sinkClosed (retry : Bool)
deriving DecidableEq, Repr

/-- The mutable state of `connection`. -/
structure Conn where
  have_abi : Bool := false
  abi : abi_def := {}
  abi_types : List (String × abi_type) := []
  callbacks : Option connection_callbacks := none
  socket_open : Bool := true

/-- Number of `sinkClosed` notifications carrying the given retry hint. -/
def countClosedWith (retry : Bool) (effs : List Effect) : Nat :=
  (effs.filter fun e => match e with
    | .sinkClosed r => r == retry
    | _ => false).length

/-- Number of `sinkClosed` notifications with any retry hint. -/
def countClosed (effs : List Effect) : Nat :=
  (effs.filter fun e => match e with
    | .sinkClosed _ => true
    | _ => false).length

/-- Recognises the effects that invoke the sink. -/
def isSinkEffect : Effect → Bool
  | .sinkReceivedAbi => true
  | .sinkReceivedStatus _ _ => true
  | .sinkReceivedBlocks _ _ => true
  | .sinkClosed _ => true
  | _ => false

/-- `connection::close`: closes the transport, notifies the sink (if still
held) exactly once with the retry hint, then drops the sink reference. -/
def close (retry : Bool) (c : Conn) : Conn × List Effect :=
  ({ c with socket_open := false, callbacks := none },
   Effect.closeTransport ::
     (match c.callbacks with
      | some _ => [Effect.sinkClosed retry]
      | none => []))

/-- The `nodeos_start` computation of the status overload of
`connection::request_blocks` (lines 136-142 of the source). -/
def nodeos_start_of (status : get_status_result_v0) : Nat :=
  let n0 : Nat := 0xffffffff
  let n1 := if status.trace_begin_block < status.trace_end_block then
      min n0 status.trace_begin_block else n0
  let n2 := if status.chain_state_begin_block < status.chain_state_end_block then
      min n1 status.chain_state_begin_block else n1
  if n2 = 0xffffffff then 0 else n2

/-- The `get_blocks_request_v0` assembled by the single-argument
`connection::request_blocks`. -/
def blocks_request (start_block_num : Nat) (positions : List block_position) :
    get_blocks_request_v0 :=
  { start_block_num := start_block_num
    end_block_num := 0xffffffff
    max_messages_in_flight := 0xffffffff
    have_positions := positions
    irreversible_only := false
    fetch_block := true
    fetch_traces := true
    fetch_deltas := true }

/-- Modelled from the spec: the binary integer encoding used by
`eosio::convert_to_bin` / `from_bin` (declared outside this excerpt);
section 6: unsigned integers are little-endian fixed-width.  A `uint32`
becomes four bytes, least significant first. -/
def encode_uint32 (n : Nat) : List Nat :=
  [n % 256, n / 256 % 256, n / 65536 % 256, n / 16777216 % 256]

/-- Modelled from the spec: decoding of a little-endian `uint32` (the
symmetric half of `encode_uint32`). -/
def decode_uint32 : List Nat → Option (Nat × List Nat)
  | b0 :: b1 :: b2 :: b3 :: rest =>
      some (b0 + 256 * b1 + 65536 * b2 + 16777216 * b3, rest)
  | _ => none

/-- Modelled from the spec: the variable-length unsigned integer (ULEB128)
used for tagged-union selectors and sequence length prefixes. -/
def encode_varuint32 (n : Nat) : List Nat :=
  if n < 128 then [n] else (n % 128 + 128) :: encode_varuint32 (n / 128)
decreasing_by exact Nat.div_lt_self (by omega) (by omega)

/-- Modelled from the spec: ULEB128 decoding, the symmetric half of
`encode_varuint32`. -/
def decode_varuint32 : List Nat → Option (Nat × List Nat)
  | [] => none
  | b :: rest =>
      if b < 128 then some (b, rest)
      else match decode_varuint32 rest with
        | some (m, r) => some (b - 128 + 128 * m, r)
        | none => none

/-- Modelled from the spec: a Bool is one byte, 0 or 1. -/
def encode_bool (b : Bool) : List Nat := [if b then 1 else 0]

/-- Modelled from the spec: Bool decoding. -/
def decode_bool : List Nat → Option (Bool × List Nat)
  | 0 :: rest => some (false, rest)
  | 1 :: rest => some (true, rest)
  | _ => none

/-- Modelled from the spec: a fixed-width byte field (the 256-bit block id)
is its `k` raw bytes. -/
def decode_fixed (k : Nat) (l : List Nat) : Option (List Nat × List Nat) :=
  if k ≤ l.length then some (l.take k, l.drop k) else none

/-- Modelled from the spec: a `block_position` is its block number followed
by the 32 block-id bytes, in declaration order. -/
def encode_block_position (p : block_position) : List Nat :=
  encode_uint32 p.block_num ++ p.block_id

/-- Modelled from the spec: `block_position` decoding. -/
def decode_block_position (l : List Nat) : Option (block_position × List Nat) :=
  match decode_uint32 l with
  | none => none
  | some (num, r1) =>
      match decode_fixed 32 r1 with
      | none => none
      | some (bid, r2) => some ({ block_num := num, block_id := bid }, r2)

/-- Modelled from the spec: a sequence is length-prefixed (ULEB128) and its
elements follow in order. -/
def encode_positions (ps : List block_position) : List Nat :=
  encode_varuint32 ps.length ++ (ps.map encode_block_position).flatten

/-- Modelled from the spec: decoding of `count` consecutive
`block_position` elements. -/
def decode_positions : Nat → List Nat → Option (List block_position × List Nat)
  | 0, l => some ([], l)
  | k + 1, l =>
      match decode_block_position l with
      | none => none
      | some (p, r1) =>
          match decode_positions k r1 with
          | none => none
          | some (ps, r2) => some (p :: ps, r2)

/-- Modelled from the spec: the eight fields of `get_blocks_request_v0`
encoded in declaration order. -/
def encode_get_blocks (r : get_blocks_request_v0) : List Nat :=
  encode_uint32 r.start_block_num ++ encode_uint32 r.end_block_num ++
  encode_uint32 r.max_messages_in_flight ++ encode_positions r.have_positions ++
  encode_bool r.irreversible_only ++ encode_bool r.fetch_block ++
  encode_bool r.fetch_traces ++ encode_bool r.fetch_deltas

/-- Modelled from the spec: `get_blocks_request_v0` decoding. -/
def decode_get_blocks (l : List Nat) : Option (get_blocks_request_v0 × List Nat) :=
  match decode_uint32 l with
  | none => none
  | some (sbn, r1) =>
    match decode_uint32 r1 with
    | none => none
    | some (ebn, r2) =>
      match decode_uint32 r2 with
      | none => none
      | some (mm, r3) =>
        match decode_varuint32 r3 with
        | none => none
        | some (cnt, r4) =>
          match decode_positions cnt r4 with
          | none => none
          | some (ps, r5) =>
            match decode_bool r5 with
            | none => none
            | some (irr, r6) =>
              match decode_bool r6 with
              | none => none
              | some (fb, r7) =>
                match decode_bool r7 with
                | none => none
                | some (ft, r8) =>
                  match decode_bool r8 with
                  | none => none
                  | some (fd, r9) =>
                      some ({ start_block_num := sbn, end_block_num := ebn,
                              max_messages_in_flight := mm, have_positions := ps,
                              irreversible_only := irr, fetch_block := fb,
                              fetch_traces := ft, fetch_deltas := fd }, r9)

/-- Modelled from the spec: the `RequestEnvelope` is tag-prefixed, tag 0
selecting `get_status_request_v0` (no fields) and tag 1 selecting
`get_blocks_request_v0`, matching the declaration order of the variant. -/
def encode_request : request → List Nat
  | .get_status => encode_varuint32 0
  | .get_blocks r => encode_varuint32 1 ++ encode_get_blocks r

/-- Modelled from the spec: `RequestEnvelope` decoding, symmetric to
`encode_request`. -/
def decode_request (l : List Nat) : Option (request × List Nat) :=
  match decode_varuint32 l with
  | none => none
  | some (0, rest) => some (request.get_status, rest)
  | some (1, rest) =>
      match decode_get_blocks rest with
      | none => none
      | some (r, rest2) => some (request.get_blocks r, rest2)
  | some (_, _) => none

/-- `connection::send`: encodes the request and writes the bytes (the
output buffer is captured by the pending write).  The modelled encoder is
total, so the `report_error` branch of the source is unreachable here. -/
def send (req : request) (c : Conn) : Conn × List Effect :=
  (c, [Effect.sendBytes (encode_request req)])

/-- The single-argument `connection::request_blocks`: assembles the
"stream everything from here forward" request and sends it.  The assembled
request is returned as the first component so it can be inspected. -/
def request_blocks (start_block_num : Nat) (positions : List block_position)
    (c : Conn) : get_blocks_request_v0 × Conn × List Effect :=
  let req := blocks_request start_block_num positions
  (req, send (request.get_blocks req) c)

/-- The status overload of `connection::request_blocks`: computes
`nodeos_start` and delegates to the single-argument overload with
`max start_block_num nodeos_start`. -/
def request_blocks_status (status : get_status_result_v0) (start_block_num : Nat)
    (positions : List block_position) (c : Conn) :
    get_blocks_request_v0 × Conn × List Effect :=
  request_blocks (max start_block_num (nodeos_start_of status)) positions c

/-- `connection::get_type`: registry lookup; an absent name throws
`runtime_error("unknown type " + name)`, modelled as `Except.error`. -/
def get_type (name : String) (c : Conn) : Except String abi_type :=
  match c.abi_types.lookup name with
  | none => Except.error ("unknown type " ++ name)
  | some t => Except.ok t

/-- `connection::receive_abi`.  `parsed` is the outcome of the external
`from_json` (its failure makes `check_discard` throw); `check_version` is
`abieos::check_abi_version`; `convert` is the external conversion to the
registry.  The source mutates `abi` before the version check, then builds
the registry, sets `have_abi`, and notifies the sink.  The third component
is the exception, thrown to the enclosing continuation. -/
def receive_abi (parsed : Except String abi_def) (check_version : String → Bool)
    (convert : abi_def → Except String (List (String × abi_type)))
    (c : Conn) : Conn × List Effect × Option String :=
  match parsed with
  | .error e => (c, [], some e)
  | .ok a =>
    let c1 := { c with abi := a }
    if check_version a.version then
      match convert a with
      | .error e => (c1, [], some e)
      | .ok types =>
        let c2 := { c1 with abi_types := types, have_abi := true }
        (c2,
         (match c2.callbacks with
          | some _ => [Effect.sinkReceivedAbi]
          | none => []), none)
    else
      (c1, [], some ("unsupported abi version " ++ a.version))

/-- The `std::visit` dispatch of `receive_result`: invoke the sink handler
matching the decoded union member. -/
def dispatch (cb : connection_callbacks) (v : result) (orig : List Nat) : Bool :=
  match v with
  | .status s => cb.receivedStatus s orig
  | .blocks b => cb.receivedBlocks b orig

/-- `connection::receive_result`.  `decoded` is the outcome of the external
`from_bin`: the `result` value left by the attempted decode together with
its error, if any.  The error is reported (`report_error` is declared
outside this excerpt; modelled from the spec, sections 4.3 and 7, as
reporting without raising) and dispatch proceeds regardless, passing the
original undecoded bytes `orig` alongside the value; with no sink held the
conjunction short-circuits to `false` without dispatching. -/
def receive_result (decoded : result × Option String) (orig : List Nat)
    (c : Conn) : Conn × List Effect × Bool :=
  let errEffs : List Effect := match decoded.2 with
    | some m => [Effect.reportedError m]
    | none => []
  match c.callbacks with
  | none => (c, errEffs, false)
  | some cb =>
    match decoded.1 with
    | .status s => (c, errEffs ++ [Effect.sinkReceivedStatus s orig],
                    cb.receivedStatus s orig)
    | .blocks b => (c, errEffs ++ [Effect.sinkReceivedBlocks b orig],
                    cb.receivedBlocks b orig)

/-- `connection::catch_and_close`: runs the continuation body; a thrown
exception is logged and the connection closes with `retry = false`.  The
result is total: the exception never escapes. -/
def catch_and_close (f : Conn → Conn × List Effect × Option String)
    (c : Conn) : Conn × List Effect :=
  match f c with
  | (c1, effs, none) => (c1, effs)
  | (c1, effs, some e) =>
      let r := close false c1
      (r.1, effs ++ Effect.logError e :: r.2)

/-- `connection::on_fail`: logs the failing step and closes with
`retry = true`. -/
def on_fail (what m : String) (c : Conn) : Conn × List Effect :=
  let r := close true c
  (r.1, Effect.logError (what ++ ": " ++ m) :: r.2)

/-- `connection::enter_callback`: a transport-level error code routes to
`on_fail`; otherwise the body runs under `catch_and_close`. -/
def enter_callback (ec : Option String) (what : String)
    (f : Conn → Conn × List Effect × Option String) (c : Conn) :
    Conn × List Effect :=
  match ec with
  | some m => on_fail what m c
  | none => catch_and_close f c

/-- The body of the read-completion continuation of
`connection::start_read`: the first payload bootstraps the registry,
later payloads are decoded and dispatched; a dispatch that returns `false`
closes without retry and stops; otherwise the next read is issued. -/
def start_read_body (parsed : Except String abi_def)
    (check_version : String → Bool)
    (convert : abi_def → Except String (List (String × abi_type)))
    (decoded : result × Option String) (orig : List Nat)
    (c : Conn) : Conn × List Effect × Option String :=
  if c.have_abi then
    match receive_result decoded orig c with
    | (c1, effs, true) => (c1, effs ++ [Effect.issueRead], none)
    | (c1, effs, false) =>
        let r := close false c1
        (r.1, effs ++ r.2, none)
  else
    match receive_abi parsed check_version convert c with
    | (c1, effs, some e) => (c1, effs, some e)
    | (c1, effs, none) => (c1, effs ++ [Effect.issueRead], none)

/-- One completion of the read issued by `connection::start_read`, wrapped
in `enter_callback` exactly as in the source. -/
def on_read (ec : Option String) (parsed : Except String abi_def)
    (check_version : String → Bool)
    (convert : abi_def → Except String (List (String × abi_type)))
    (decoded : result × Option String) (orig : List Nat)
    (c : Conn) : Conn × List Effect :=
  enter_callback ec "async_read" (start_read_body parsed check_version convert decoded orig) c

/-- A concrete sink that always accepts, used to instantiate the theorems
on closed inputs. -/
def sink_accepting : connection_callbacks :=
  { receivedStatus := fun _ _ => true, receivedBlocks := fun _ _ => true }

end StateHistory

namespace WasmQl

/-- `std::string::find` translated to a byte list: index of the first
occurrence of `t`, or `none` for `npos`. -/
def string_find (t : Nat) : List Nat → Option Nat
  | [] => none
  | b :: rest => if b = t then some 0 else (string_find t rest).map (· + 1)

/-- The `wql-listen` handling of `wasm_ql_plugin::plugin_initialize`
(strings as byte lists, 58 being the colon): no colon throws
`runtime_error("invalid --wql-listen value: " + ip_port)`, modelled as
`none`; otherwise the address is `substr(0, find)` and the port is
`substr(find + 1, size)`, i.e. the whole remainder after the first colon. -/
def wql_listen_split (s : List Nat) : Option (List Nat × List Nat) :=
  match string_find 58 s with
  | none => none
  | some i => some (s.take i, s.drop (i + 1))

end WasmQl

namespace StateHistory

/-- Claim C1: the status overload of `request_blocks` computes
`nodeos_start` by lowering `max uint32` with each valid range's begin block
(0 when neither range is valid) and delegates to the single-argument
overload with `max start_block_num nodeos_start`; in particular the status
`(trace 5..10, chain-state 0..0)` with requested start 1 yields final start
block 5.  The first conjunct characterises the computed lower bound in
closed form. -/
theorem request_blocks_status_spec (status : get_status_result_v0)
    (start_block_num : Nat) (positions : List block_position) (c : Conn)
    (ht : status.trace_end_block ≤ 0xffffffff)
    (hc : status.chain_state_end_block ≤ 0xffffffff) :
    nodeos_start_of status =
      (if status.trace_begin_block < status.trace_end_block then
        if status.chain_state_begin_block < status.chain_state_end_block then
          min status.trace_begin_block status.chain_state_begin_block
        else status.trace_begin_block
      else if status.chain_state_begin_block < status.chain_state_end_block then
        status.chain_state_begin_block
      else 0) ∧
    (request_blocks_status status start_block_num positions c).1 =
      blocks_request (max start_block_num (nodeos_start_of status)) positions ∧
    (request_blocks_status ⟨5, 10, 0, 0⟩ 1 [] c).1.start_block_num = 5 := by
  refine ⟨?_, rfl, rfl⟩
  simp only [nodeos_start_of]
  split_ifs <;> omega

/-- Claim C1, instantiated: the documented example status yields final
start block 5 and the closed-form lower bound evaluates as claimed. -/
theorem request_blocks_status_spec_witness :
    (request_blocks_status ⟨5, 10, 0, 0⟩ 1 [] { callbacks := none }).1.start_block_num = 5 ∧
    nodeos_start_of ⟨5, 10, 0, 0⟩ = 5 := by
  have h := request_blocks_status_spec ⟨5, 10, 0, 0⟩ 1 [] { callbacks := none }
    (by decide) (by decide)
  exact ⟨h.2.2, by rw [h.1]; decide⟩

/-- Claim C2: the single-argument `request_blocks` builds a
`GetBlocksRequest` with exactly the given start block, `end_block_num` and
`max_messages_in_flight` at max uint32, the given positions,
`irreversible_only = false`, all three fetch flags `true`, and sends its
encoding. -/
theorem request_blocks_fields (start_block_num : Nat)
    (positions : List block_position) (c : Conn) :
    (request_blocks start_block_num positions c).1 =
      { start_block_num := start_block_num
        end_block_num := 0xffffffff
        max_messages_in_flight := 0xffffffff
        have_positions := positions
        irreversible_only := false
        fetch_block := true
        fetch_traces := true
        fetch_deltas := true } ∧
    (request_blocks start_block_num positions c).2.2 =
      [Effect.sendBytes (encode_request
        (request.get_blocks (request_blocks start_block_num positions c).1))] :=
  ⟨rfl, rfl⟩

/-- An association list whose `lookup` finds nothing absent from it. -/
theorem lookup_eq_none_of_not_mem {name : String} {l : List (String × abi_type)}
    (h : ∀ t, (name, t) ∉ l) : l.lookup name = none := by
  induction l with
  | nil => rfl
  | cons hd tl ih =>
    obtain ⟨k, v⟩ := hd
    have hk : name ≠ k := by
      rintro rfl
      exact h v (List.mem_cons_self _ _)
    have hbeq : (name == k) = false := beq_eq_false_iff_ne.mpr hk
    simp only [List.lookup, hbeq]
    exact ih fun t ht => h t (List.mem_cons_of_mem _ ht)

/-- With distinct keys, `lookup` returns the associated value of any
present pair. -/
theorem lookup_eq_some_of_mem {name : String} {t : abi_type}
    {l : List (String × abi_type)} (hnd : (l.map Prod.fst).Nodup)
    (h : (name, t) ∈ l) : l.lookup name = some t := by
  induction l with
  | nil => simp at h
  | cons hd tl ih =>
    obtain ⟨k, v⟩ := hd
    rcases List.mem_cons.mp h with heq | htl
    · injection heq with h1 h2
      subst h1
      subst h2
      simp [List.lookup]
    · simp only [List.map_cons] at hnd
      have hmem : name ∈ tl.map Prod.fst := List.mem_map_of_mem Prod.fst htl
      have hk : name ≠ k := by
        rintro rfl
        exact (List.nodup_cons.mp hnd).1 hmem
      have hbeq : (name == k) = false := beq_eq_false_iff_ne.mpr hk
      simp only [List.lookup, hbeq]
      exact ih (List.nodup_cons.mp hnd).2 htl

/-- Claim C4: with a well-formed registry (distinct names, as a map
guarantees), `get_type` fails with the "unknown type" error for every
absent name and returns the stored descriptor for every present name. -/
theorem get_type_spec (c : Conn) (name : String)
    (hnd : (c.abi_types.map Prod.fst).Nodup) :
    ((∀ t, (name, t) ∉ c.abi_types) →
      get_type name c = Except.error ("unknown type " ++ name)) ∧
    (∀ t, (name, t) ∈ c.abi_types → get_type name c = Except.ok t) := by
  constructor
  · intro h
    unfold get_type
    rw [lookup_eq_none_of_not_mem h]
  · intro t h
    unfold get_type
    rw [lookup_eq_some_of_mem hnd h]

/-- Claim C4, instantiated on a one-entry registry: the absent name fails,
the present name resolves. -/
theorem get_type_spec_witness :
    get_type "missing" { abi_types := [("transaction", 7)], callbacks := none } =
      Except.error ("unknown type " ++ "missing") ∧
    get_type "transaction" { abi_types := [("transaction", 7)], callbacks := none } =
      Except.ok 7 := by
  have h1 := get_type_spec { abi_types := [("transaction", 7)], callbacks := none }
    "missing" (by decide)
  have h2 := get_type_spec { abi_types := [("transaction", 7)], callbacks := none }
    "transaction" (by decide)
  exact ⟨h1.1 (by simp), h2.2 7 (by simp)⟩

end StateHistory

namespace StateHistory

/-- Little-endian `uint32` decoding inverts encoding for any value in
range, leaving the remaining bytes untouched. -/
theorem decode_encode_uint32 (n : Nat) (rest : List Nat)
    (h : n < 4294967296) :
    decode_uint32 (encode_uint32 n ++ rest) = some (n, rest) := by
  simp only [encode_uint32, List.cons_append, List.nil_append, decode_uint32,
    Option.some.injEq, Prod.mk.injEq, and_true]
  omega

/-- ULEB128 decoding inverts encoding, leaving the remaining bytes
untouched. -/
theorem decode_encode_varuint32 (n : Nat) : ∀ rest : List Nat,
    decode_varuint32 (encode_varuint32 n ++ rest) = some (n, rest) := by
  induction n using Nat.strong_induction_on with
  | _ n ih =>
    intro rest
    rw [encode_varuint32]
    by_cases h : n < 128
    · simp [h, decode_varuint32]
    · have h2 : ¬(n % 128 + 128 < 128) := by omega
      simp only [if_neg h, List.cons_append, decode_varuint32, if_neg h2]
      rw [ih (n / 128) (Nat.div_lt_self (by omega) (by omega)) rest]
      simp only [Option.some.injEq, Prod.mk.injEq, and_true]
      omega

/-- Bool decoding inverts encoding. -/
theorem decode_encode_bool (b : Bool) (rest : List Nat) :
    decode_bool (encode_bool b ++ rest) = some (b, rest) := by
  cases b <;> simp [encode_bool, decode_bool]

/-- A fixed-width field of exactly its own length decodes to itself. -/
theorem decode_fixed_append (l rest : List Nat) :
    decode_fixed l.length (l ++ rest) = some (l, rest) := by
  simp [decode_fixed, List.take_left, List.drop_left]

/-- `block_position` decoding inverts encoding for well-formed positions. -/
theorem decode_encode_block_position (p : block_position) (rest : List Nat)
    (h1 : p.block_num < 4294967296) (h2 : p.block_id.length = 32) :
    decode_block_position (encode_block_position p ++ rest) = some (p, rest) := by
  have hfix : decode_fixed 32 (p.block_id ++ rest) = some (p.block_id, rest) := by
    rw [← h2]
    exact decode_fixed_append p.block_id rest
  simp only [encode_block_position, decode_block_position, List.append_assoc,
    decode_encode_uint32 p.block_num (p.block_id ++ rest) h1, hfix]

/-- Position-sequence decoding inverts encoding for well-formed
positions. -/
theorem decode_encode_positions (ps : List block_position) (rest : List Nat)
    (h : ∀ p ∈ ps, p.block_num < 4294967296 ∧ p.block_id.length = 32) :
    decode_positions ps.length ((ps.map encode_block_position).flatten ++ rest) =
      some (ps, rest) := by
  induction ps with
  | nil => simp [decode_positions]
  | cons p tl ih =>
    have hp := h p (List.mem_cons_self _ _)
    simp only [List.map_cons, List.flatten_cons, List.length_cons,
      List.append_assoc, decode_positions,
      decode_encode_block_position p _ hp.1 hp.2,
      ih fun q hq => h q (List.mem_cons_of_mem _ hq)]

/-- `get_blocks_request_v0` decoding inverts encoding for well-formed
requests. -/
theorem decode_encode_get_blocks (r : get_blocks_request_v0) (rest : List Nat)
    (h1 : r.start_block_num < 4294967296) (h2 : r.end_block_num < 4294967296)
    (h3 : r.max_messages_in_flight < 4294967296)
    (h4 : ∀ p ∈ r.have_positions,
      p.block_num < 4294967296 ∧ p.block_id.length = 32) :
    decode_get_blocks (encode_get_blocks r ++ rest) = some (r, rest) := by
  simp only [encode_get_blocks, encode_positions, decode_get_blocks,
    List.append_assoc, decode_encode_uint32 _ _ h1, decode_encode_uint32 _ _ h2,
    decode_encode_uint32 _ _ h3, decode_encode_varuint32,
    decode_encode_positions _ _ h4, decode_encode_bool]

/-- Claim C9: encoding a `GetBlocksRequest` (as `send` does, wrapped in the
request envelope) and decoding the produced bytes recovers a value equal to
the original in every field. -/
theorem get_blocks_request_roundtrip (r : get_blocks_request_v0)
    (h1 : r.start_block_num < 4294967296) (h2 : r.end_block_num < 4294967296)
    (h3 : r.max_messages_in_flight < 4294967296)
    (h4 : ∀ p ∈ r.have_positions,
      p.block_num < 4294967296 ∧ p.block_id.length = 32) :
    decode_request (encode_request (request.get_blocks r)) =
      some (request.get_blocks r, []) := by
  have hgb := decode_encode_get_blocks r [] h1 h2 h3 h4
  rw [List.append_nil] at hgb
  simp only [encode_request, decode_request, decode_encode_varuint32, hgb]

/-- Claim C9, instantiated on a request holding one position. -/
theorem get_blocks_request_roundtrip_witness :
    decode_request (encode_request (request.get_blocks
      { start_block_num := 42
        end_block_num := 4294967295
        max_messages_in_flight := 4294967295
        have_positions := [{ block_num := 7, block_id := List.replicate 32 0 }]
        irreversible_only := false
        fetch_block := true
        fetch_traces := true
        fetch_deltas := true })) =
    some (request.get_blocks
      { start_block_num := 42
        end_block_num := 4294967295
        max_messages_in_flight := 4294967295
        have_positions := [{ block_num := 7, block_id := List.replicate 32 0 }]
        irreversible_only := false
        fetch_block := true
        fetch_traces := true
        fetch_deltas := true }, []) :=
  get_blocks_request_roundtrip _ (by decide) (by decide) (by decide) (by decide)

end StateHistory

namespace StateHistory

/-- Claim C3: when the parsed bootstrap payload carries a version outside
the supported set, `receive_abi` throws before any registry state is
written: after the read continuation completes, `have_abi` is still false,
the registry is still empty, `received_abi` was never invoked, and the
enclosing continuation caught the exception and closed the connection with
`retry = false` (one `closed(false)` notification when a sink is held,
never `closed(true)`). -/
theorem receive_abi_unsupported_version_spec (a : abi_def)
    (check_version : String → Bool)
    (convert : abi_def → Except String (List (String × abi_type)))
    (decoded : result × Option String) (orig : List Nat) (c : Conn)
    (h0 : c.have_abi = false) (h1 : c.abi_types = [])
    (hv : check_version a.version = false) :
    (on_read none (Except.ok a) check_version convert decoded orig c).1.have_abi = false ∧
    (on_read none (Except.ok a) check_version convert decoded orig c).1.abi_types = [] ∧
    Effect.sinkReceivedAbi ∉
      (on_read none (Except.ok a) check_version convert decoded orig c).2 ∧
    (on_read none (Except.ok a) check_version convert decoded orig c).1.callbacks = none ∧
    Effect.closeTransport ∈
      (on_read none (Except.ok a) check_version convert decoded orig c).2 ∧
    countClosedWith true
      (on_read none (Except.ok a) check_version convert decoded orig c).2 = 0 ∧
    (c.callbacks.isSome = true →
      countClosedWith false
        (on_read none (Except.ok a) check_version convert decoded orig c).2 = 1) := by
  cases hcb : c.callbacks with
  | none =>
    simp [on_read, enter_callback, catch_and_close, start_read_body, receive_abi,
      close, h0, h1, hv, hcb, countClosedWith]
  | some cb =>
    simp [on_read, enter_callback, catch_and_close, start_read_body, receive_abi,
      close, h0, h1, hv, hcb, countClosedWith]

/-- Claim C3, instantiated: a sink-holding fresh connection receiving a
bootstrap definition whose version fails the check ends with an empty
registry and exactly one `closed(false)`. -/
theorem receive_abi_unsupported_version_spec_witness :
    (on_read none (Except.ok { version := "bad" }) (fun _ => false)
      (fun _ => Except.ok []) (result.status ⟨0, 0, 0, 0⟩, none) []
      { callbacks := some { receivedStatus := fun _ _ => true,
                            receivedBlocks := fun _ _ => true } }).1.have_abi = false ∧
    countClosedWith false
      (on_read none (Except.ok { version := "bad" }) (fun _ => false)
        (fun _ => Except.ok []) (result.status ⟨0, 0, 0, 0⟩, none) []
        { callbacks := some { receivedStatus := fun _ _ => true,
                              receivedBlocks := fun _ _ => true } }).2 = 1 := by
  have h := receive_abi_unsupported_version_spec { version := "bad" } (fun _ => false)
    (fun _ => Except.ok []) (result.status ⟨0, 0, 0, 0⟩, none) []
    { callbacks := some { receivedStatus := fun _ _ => true,
                          receivedBlocks := fun _ _ => true } } rfl rfl rfl
  exact ⟨h.1, h.2.2.2.2.2.2 rfl⟩

/-- Claim C5: once `have_abi` holds, a payload whose `ResultEnvelope`
decode failed is reported, yet the value left by the attempted decode is
still dispatched to the sink together with the original undecoded byte
span, and the dispatch verdict is the sink's. -/
theorem receive_result_decode_error_spec (v : result) (m : String)
    (orig : List Nat) (c : Conn) (cb : connection_callbacks)
    (hcb : c.callbacks = some cb) :
    Effect.reportedError m ∈ (receive_result (v, some m) orig c).2.1 ∧
    (∀ s, v = result.status s →
      Effect.sinkReceivedStatus s orig ∈ (receive_result (v, some m) orig c).2.1 ∧
      (receive_result (v, some m) orig c).2.2 = cb.receivedStatus s orig) ∧
    (∀ b, v = result.blocks b →
      Effect.sinkReceivedBlocks b orig ∈ (receive_result (v, some m) orig c).2.1 ∧
      (receive_result (v, some m) orig c).2.2 = cb.receivedBlocks b orig) := by
  cases v <;> simp [receive_result, hcb]

/-- Claim C5, instantiated: a failed decode that left a blocks result is
reported and still dispatched with the original bytes. -/
theorem receive_result_decode_error_spec_witness :
    Effect.reportedError "stream error" ∈
      (receive_result (result.blocks { payload := [1] }, some "stream error") [9, 9]
        { have_abi := true
          callbacks := some { receivedStatus := fun _ _ => true,
                              receivedBlocks := fun _ _ => true } }).2.1 ∧
    Effect.sinkReceivedBlocks { payload := [1] } [9, 9] ∈
      (receive_result (result.blocks { payload := [1] }, some "stream error") [9, 9]
        { have_abi := true
          callbacks := some { receivedStatus := fun _ _ => true,
                              receivedBlocks := fun _ _ => true } }).2.1 := by
  have h := receive_result_decode_error_spec (result.blocks { payload := [1] })
    "stream error" [9, 9]
    { have_abi := true
      callbacks := some { receivedStatus := fun _ _ => true,
                          receivedBlocks := fun _ _ => true } }
    { receivedStatus := fun _ _ => true, receivedBlocks := fun _ _ => true } rfl
  exact ⟨h.1, (h.2.2 { payload := [1] } rfl).1⟩

/-- Claim C6: in the streaming state, a dispatch that returns `false` ends
the read loop — exactly one `closed(false)` follows and no further read is
issued — while a dispatch that returns `true` issues the next read and
closes nothing. -/
theorem start_read_dispatch_spec (parsed : Except String abi_def)
    (check_version : String → Bool)
    (convert : abi_def → Except String (List (String × abi_type)))
    (v : result) (err : Option String) (orig : List Nat) (c : Conn)
    (cb : connection_callbacks)
    (habi : c.have_abi = true) (hcb : c.callbacks = some cb) :
    (dispatch cb v orig = false →
      countClosed (on_read none parsed check_version convert (v, err) orig c).2 = 1 ∧
      countClosedWith false
        (on_read none parsed check_version convert (v, err) orig c).2 = 1 ∧
      Effect.issueRead ∉
        (on_read none parsed check_version convert (v, err) orig c).2) ∧
    (dispatch cb v orig = true →
      Effect.issueRead ∈
        (on_read none parsed check_version convert (v, err) orig c).2 ∧
      countClosed (on_read none parsed check_version convert (v, err) orig c).2 = 0) := by
  cases v with
  | status s =>
    cases hd : cb.receivedStatus s orig <;> cases err <;>
      simp [on_read, enter_callback, catch_and_close, start_read_body,
        receive_result, dispatch, close, countClosed, countClosedWith, habi, hcb, hd]
  | blocks b =>
    cases hd : cb.receivedBlocks b orig <;> cases err <;>
      simp [on_read, enter_callback, catch_and_close, start_read_body,
        receive_result, dispatch, close, countClosed, countClosedWith, habi, hcb, hd]

/-- Claim C6, instantiated: a sink rejecting blocks results gets exactly
one `closed(false)` and no further read; a status result it accepts leads
to the next read. -/
theorem start_read_dispatch_spec_witness :
    countClosed (on_read none (Except.error "unused") (fun _ => true)
      (fun _ => Except.ok []) (result.blocks { payload := [] }, none) []
      { have_abi := true
        callbacks := some { receivedStatus := fun _ _ => true,
                            receivedBlocks := fun _ _ => false } }).2 = 1 ∧
    Effect.issueRead ∈ (on_read none (Except.error "unused") (fun _ => true)
      (fun _ => Except.ok []) (result.status ⟨1, 2, 3, 4⟩, none) []
      { have_abi := true
        callbacks := some { receivedStatus := fun _ _ => true,
                            receivedBlocks := fun _ _ => false } }).2 := by
  have hstop := start_read_dispatch_spec (Except.error "unused") (fun _ => true)
    (fun _ => Except.ok []) (result.blocks { payload := [] }) none []
    { have_abi := true
      callbacks := some { receivedStatus := fun _ _ => true,
                          receivedBlocks := fun _ _ => false } }
    { receivedStatus := fun _ _ => true, receivedBlocks := fun _ _ => false }
    rfl rfl
  have hgo := start_read_dispatch_spec (Except.error "unused") (fun _ => true)
    (fun _ => Except.ok []) (result.status ⟨1, 2, 3, 4⟩) none []
    { have_abi := true
      callbacks := some { receivedStatus := fun _ _ => true,
                          receivedBlocks := fun _ _ => false } }
    { receivedStatus := fun _ _ => true, receivedBlocks := fun _ _ => false }
    rfl rfl
  exact ⟨(hstop.1 rfl).1, (hgo.2 rfl).1⟩

end StateHistory

namespace StateHistory

/-- Once the sink reference is gone, a read completion — whatever its error
code, payload, or decode outcome — emits no sink effect and leaves the sink
reference gone. -/
theorem on_read_silent (ec : Option String) (parsed : Except String abi_def)
    (check_version : String → Bool)
    (convert : abi_def → Except String (List (String × abi_type)))
    (decoded : result × Option String) (orig : List Nat) (c : Conn)
    (h : c.callbacks = none) :
    (on_read ec parsed check_version convert decoded orig c).2.filter isSinkEffect = [] ∧
    (on_read ec parsed check_version convert decoded orig c).1.callbacks = none := by
  obtain ⟨v, err⟩ := decoded
  cases ec with
  | some m =>
    simp [on_read, enter_callback, on_fail, close, h, isSinkEffect]
  | none =>
    cases habi : c.have_abi with
    | true =>
      cases err <;>
        simp [on_read, enter_callback, catch_and_close, start_read_body,
          receive_result, close, habi, h, isSinkEffect]
    | false =>
      cases parsed with
      | error e =>
        simp [on_read, enter_callback, catch_and_close, start_read_body,
          receive_abi, close, habi, h, isSinkEffect]
      | ok a =>
        cases hv : check_version a.version with
        | false =>
          simp [on_read, enter_callback, catch_and_close, start_read_body,
            receive_abi, close, habi, hv, h, isSinkEffect]
        | true =>
          cases hconv : convert a with
          | error e =>
            simp [on_read, enter_callback, catch_and_close, start_read_body,
              receive_abi, close, habi, hv, hconv, h, isSinkEffect]
          | ok types =>
            simp [on_read, enter_callback, catch_and_close, start_read_body,
              receive_abi, close, habi, hv, hconv, h, isSinkEffect]

/-- A failure completion on a connection without a sink emits no sink
effect. -/
theorem on_fail_silent (what m : String) (c : Conn) (h : c.callbacks = none) :
    (on_fail what m c).2.filter isSinkEffect = [] ∧
    (on_fail what m c).1.callbacks = none := by
  simp [on_fail, close, h, isSinkEffect]

/-- Claim C7: `close(retry)` is idempotent with respect to the sink.  While
a sink is held, closing notifies it exactly once, as the single
`sinkClosed retry` of the effect list; the new state holds no sink
reference, so a second close, any later read completion, and any later
failure completion invoke no sink callback at all. -/
theorem close_terminal_spec (c : Conn) (retry : Bool) :
    (close retry c).1.callbacks = none ∧
    (c.callbacks.isSome = true →
      (close retry c).2 = [Effect.closeTransport, Effect.sinkClosed retry]) ∧
    (∀ retry', (close retry' (close retry c).1).2.filter isSinkEffect = []) ∧
    (∀ ec parsed check_version convert decoded orig,
      (on_read ec parsed check_version convert decoded orig
        (close retry c).1).2.filter isSinkEffect = [] ∧
      (on_read ec parsed check_version convert decoded orig
        (close retry c).1).1.callbacks = none) ∧
    (∀ what m,
      (on_fail what m (close retry c).1).2.filter isSinkEffect = []) := by
  refine ⟨rfl, ?_, ?_, ?_, ?_⟩
  · intro hs
    cases hcb : c.callbacks with
    | none => rw [hcb] at hs; simp at hs
    | some cb => simp [close, hcb]
  · intro retry'
    simp [close, isSinkEffect]
  · intro ec parsed check_version convert decoded orig
    exact on_read_silent ec parsed check_version convert decoded orig _ rfl
  · intro what m
    exact (on_fail_silent what m _ rfl).1

/-- Claim C7, instantiated: closing a sink-holding connection notifies the
sink exactly once; the subsequent close notifies nobody. -/
theorem close_terminal_spec_witness :
    (close true { callbacks := some sink_accepting }).2 =
      [Effect.closeTransport, Effect.sinkClosed true] ∧
    (close false
      (close true { callbacks := some sink_accepting }).1).2.filter isSinkEffect = [] := by
  have h := close_terminal_spec { callbacks := some sink_accepting } true
  exact ⟨h.2.1 rfl, h.2.2.1 false⟩

/-- Claim C8: a completion carrying a transport-level error code routes to
`on_fail`, never runs the continuation body, and closes with
`retry = true`; a completion without an error code whose body raises has
the exception caught at the continuation boundary — `enter_callback`
returns the closed state instead of propagating — logging it and closing
with `retry = false`. -/
theorem enter_callback_routing_spec (what m e : String)
    (f : Conn → Conn × List Effect × Option String) (c c1 : Conn)
    (effs1 : List Effect) :
    enter_callback (some m) what f c = on_fail what m c ∧
    (on_fail what m c).1.callbacks = none ∧
    (c.callbacks.isSome = true →
      countClosedWith true (on_fail what m c).2 = 1 ∧
      countClosedWith false (on_fail what m c).2 = 0) ∧
    (f c = (c1, effs1, some e) →
      enter_callback none what f c =
        ((close false c1).1, effs1 ++ Effect.logError e :: (close false c1).2) ∧
      (c1.callbacks.isSome = true →
        countClosedWith false (Effect.logError e :: (close false c1).2) = 1 ∧
        countClosedWith true (Effect.logError e :: (close false c1).2) = 0)) := by
  refine ⟨rfl, rfl, ?_, ?_⟩
  · intro hs
    cases hcb : c.callbacks with
    | none => rw [hcb] at hs; simp at hs
    | some cb => simp [on_fail, close, hcb, countClosedWith]
  · intro hf
    constructor
    · simp only [enter_callback, catch_and_close, hf]
    · intro hs
      cases hcb : c1.callbacks with
      | none => rw [hcb] at hs; simp at hs
      | some cb => simp [close, hcb, countClosedWith]

/-- Claim C8, instantiated: with a sink held, an error code yields one
`closed(true)`; an exception from the body yields the caught-and-closed
result. -/
theorem enter_callback_routing_spec_witness :
    countClosedWith true (on_fail "resolve" "host not found"
      { callbacks := some sink_accepting }).2 = 1 ∧
    enter_callback none "resolve" (fun c => (c, [], some "boom"))
      { callbacks := some sink_accepting } =
      ((close false { callbacks := some sink_accepting }).1,
       [] ++ Effect.logError "boom" ::
         (close false { callbacks := some sink_accepting }).2) := by
  have h := enter_callback_routing_spec "resolve" "host not found" "boom"
    (fun c => (c, [], some "boom"))
    { callbacks := some sink_accepting }
    { callbacks := some sink_accepting } []
  exact ⟨(h.2.2.1 rfl).1, (h.2.2.2 rfl).1⟩

end StateHistory

namespace WasmQl

/-- `string_find` misses exactly when the byte is absent. -/
theorem string_find_eq_none_iff (t : Nat) (s : List Nat) :
    string_find t s = none ↔ t ∉ s := by
  induction s with
  | nil => simp [string_find]
  | cons b rest ih =>
    by_cases hb : b = t
    · subst hb
      simp [string_find]
    · have hne : t ≠ b := fun h => hb h.symm
      simp only [string_find, if_neg hb, List.mem_cons, not_or]
      rcases hf : string_find t rest with _ | j
      · simp [hne, ih.mp hf]
      · have hmem : t ∈ rest := by
          by_contra hr
          rw [ih.mpr hr] at hf
          exact Option.noConfusion hf
        simp [hmem]

/-- Claim C10: `plugin_initialize` raises on the configured `wql-listen`
value exactly when it contains no colon; otherwise the address is the
substring before the first colon and the port is the entire substring after
it.  The split is characterised structurally: the input decomposes as
`pre ++ colon :: post` with no colon in `pre`, and the result is
`(pre, post)`; in particular the bytes of "a:b:c" yield address "a" and
port "b:c". -/
theorem wql_listen_split_spec (s : List Nat) :
    (wql_listen_split s = none ↔ 58 ∉ s) ∧
    (58 ∈ s → ∃ pre post, s = pre ++ 58 :: post ∧ 58 ∉ pre ∧
      wql_listen_split s = some (pre, post)) ∧
    wql_listen_split [97, 58, 98, 58, 99] = some ([97], [98, 58, 99]) := by
  refine ⟨?_, ?_, by decide⟩
  · constructor
    · intro h
      rcases hf : string_find 58 s with _ | i
      · exact (string_find_eq_none_iff 58 s).mp hf
      · rw [wql_listen_split, hf] at h
        simp at h
    · intro h
      rw [wql_listen_split, (string_find_eq_none_iff 58 s).mpr h]
  · intro hmem
    induction s with
    | nil => simp at hmem
    | cons b rest ih =>
      by_cases hb : b = 58
      · subst hb
        exact ⟨[], rest, rfl, by simp, by simp [wql_listen_split, string_find]⟩
      · have hr : 58 ∈ rest := by
          rcases List.mem_cons.mp hmem with h58 | h58
          · exact absurd h58.symm hb
          · exact h58
        obtain ⟨pre, post, hs, hpre, hsplit⟩ := ih hr
        rcases hf : string_find 58 rest with _ | j
        · rw [wql_listen_split, hf] at hsplit
          simp at hsplit
        · rw [wql_listen_split, hf, Option.some.injEq, Prod.mk.injEq] at hsplit
          refine ⟨b :: pre, post, by simp [hs], ?_, ?_⟩
          · simp only [List.mem_cons, not_or]
            exact ⟨fun h58 => hb h58.symm, hpre⟩
          · rw [wql_listen_split]
            simp only [string_find, if_neg hb, hf, Option.map_some]
            simp [List.take_succ_cons, List.drop_succ_cons, hsplit.1, hsplit.2]

/-- Claim C10, instantiated on the bytes of "a:b:c": address "a", port
"b:c", and the structural decomposition holds. -/
theorem wql_listen_split_spec_witness :
    wql_listen_split [97, 58, 98, 58, 99] = some ([97], [98, 58, 99]) ∧
    ∃ pre post, [97, 58, 98, 58, 99] = pre ++ 58 :: post ∧ 58 ∉ pre ∧
      wql_listen_split [97, 58, 98, 58, 99] = some (pre, post) := by
  have h := wql_listen_split_spec [97, 58, 98, 58, 99]
  exact ⟨h.2.2, h.2.1 (by decide)⟩

end WasmQl
